import Mathlib

/-!
Shallow embedding of the storage core of dbkit (src/allocator.rs, src/block.rs,
src/util/math.rs, src/types.rs, src/schema.rs, src/row.rs, src/error.rs).

Machine bytes are modelled as `Nat`, buffers as `List Nat`, raw pointers into an
arena as (chunk index, byte offset) pairs, and the platform allocator as an
oracle (`List Bool`) stating whether each successive allocation / resize request
succeeds (an empty oracle means every request succeeds).  Newly allocated or
grown memory is uninitialized in the source; the model fills it with zeroes.
Rust panics (slice-range violations, `unwrap` of `None`) are modelled as an
explicit `panicked` outcome distinct from returned errors.
-/

namespace DBKit

/-- Execution errors, from src/error.rs (the storage-core variants; `IO(IOError)`
is irrelevant here and carries no payload in the model). -/
inductive DBError where
  | Unknown
  | UnknownType (s : String)
  | AttributeMissing (s : String)
  | AttributeNullability (s : String)
  | AttributeType (s : String)
  | AttributeDuplicate (s : String)
  | RowOutOfBounds
  | Memory
  | MemoryLimit
  deriving DecidableEq

/-- Runtime type tags, from src/types.rs (`enum Type`; renamed `DType` because
`Type` is reserved in Lean). -/
inductive DType where
  | UINT32
  | UINT64
  | INT32
  | INT64
  | FLOAT32
  | FLOAT64
  | BOOLEAN
  | TEXT
  | BLOB
  deriving DecidableEq

/-- `Type::size_of` from src/types.rs: `mem::size_of` of the `Store` type of each
tag on a 64-bit target (`RawData` is a pointer + usize pair, 16 bytes). -/
def DType.size_of : DType → Nat
  | .UINT32 => 4
  | .UINT64 => 8
  | .INT32 => 4
  | .INT64 => 8
  | .FLOAT32 => 4
  | .FLOAT64 => 8
  | .BOOLEAN => 1
  | .TEXT => 16
  | .BLOB => 16

theorem DType.size_of_pos (t : DType) : 0 < t.size_of := by
  cases t <;> decide

/-- `Attribute` from src/schema.rs. -/
structure Attribute where
  name : String
  nullable : Bool
  dtype : DType
  deriving DecidableEq

/-- `RowRange` from src/row.rs. -/
structure RowRange where
  offset : Nat
  rows : Nat
  deriving DecidableEq

/-- Decidable equality for `Except`, so that concrete runs can be settled by
`decide`. -/
instance {ε α : Type} [DecidableEq ε] [DecidableEq α] : DecidableEq (Except ε α) := fun x y =>
  match x, y with
  | Except.ok a, Except.ok b =>
    if h : a = b then isTrue (by rw [h]) else isFalse (by intro hc; cases hc; exact h rfl)
  | Except.error a, Except.error b =>
    if h : a = b then isTrue (by rw [h]) else isFalse (by intro hc; cases hc; exact h rfl)
  | Except.ok _, Except.error _ => isFalse (by intro hc; cases hc)
  | Except.error _, Except.ok _ => isFalse (by intro hc; cases hc)

/-- `range.map_or((0, dflt), |r| (r.offset, r.rows))`, the combinator both
`alias_column` and `window_alias` in src/block.rs use to destructure the
optional row range. -/
def rangeOf (range : Option RowRange) (dflt : Nat) : Nat × Nat :=
  match range with
  | none => (0, dflt)
  | some r => (r.offset, r.rows)

/-! ### Allocation oracle

The `Allocator` trait (src/allocator.rs) can fail any allocation or resize with
`DBError::Memory`.  The oracle is the stream of success bits consumed by
successive requests; an exhausted (empty) oracle always succeeds, so `[]` is
the always-succeeding heap allocator. -/

abbrev AllocOracle := List Bool

/-- Consume one allocation request from the oracle. -/
def allocStep : AllocOracle → Bool × AllocOracle
  | [] => (true, [])
  | b :: rest => (b, rest)

/-- `HeapAllocator::resize` semantics on the byte contents: bytes up to the new
size are preserved (`reallocate` copies), bytes past the old length are
uninitialized (zero in the model). -/
def resizeBytes (old : List Nat) (n : Nat) : List Nat :=
  old.take n ++ List.replicate (n - old.length) 0

theorem resizeBytes_length (old : List Nat) (n : Nat) :
    (resizeBytes old n).length = n := by
  simp [resizeBytes]
  omega

/-- `OwnedChunk::resize` from src/allocator.rs: a chunk that owns nothing
(`parent = None`, i.e. never allocated) fails with `DBError::Memory` without
consulting the allocator; otherwise the allocator is asked (one oracle step)
and on failure the chunk is left as it was. -/
def chunkResize (c : Option (List Nat)) (o : AllocOracle) (size : Nat) :
    Option DBError × Option (List Nat) × AllocOracle :=
  match c with
  | none => (some DBError.Memory, none, o)
  | some bytes =>
    if (allocStep o).1 then (none, some (resizeBytes bytes size), (allocStep o).2)
    else (some DBError.Memory, some bytes, (allocStep o).2)

/-! ### ChainedArena (src/allocator.rs lines 157-237) -/

/-- A raw pointer into arena storage: which chunk, and the byte offset within
it.  `arena.as_mut_ptr().offset(k)` on chunk `i` is `⟨i, k⟩`. -/
structure ArenaPtr where
  chunk : Nat
  off : Nat
  deriving DecidableEq

/-- `ArenaAppend(chunk_offset, ptr)` from src/allocator.rs: the value of
`self.chunks.len()` at return time and the pointer written. -/
structure ArenaAppend where
  chunk : Nat
  ptr : ArenaPtr
  deriving DecidableEq

/-- `ChainedArena` from src/allocator.rs.  Each chunk is its byte contents;
the parent allocator is represented by the threaded oracle. -/
structure ChainedArena where
  chunks : List (List Nat)
  min_size : Nat
  max_size : Nat
  pos : Nat
  deriving DecidableEq

def ChainedArena.new (min_size max_size : Nat) : ChainedArena :=
  { chunks := [], min_size := min_size, max_size := max_size, pos := 0 }

/-- The tail of `ChainedArena::allocate`: `make_arena` a fresh chunk of
`new_size` bytes from the parent allocator, push it, and return its base
pointer.  `self.pos` is not touched by this path in the source. -/
def ChainedArena.allocNew (a : ChainedArena) (o : AllocOracle) (new_size : Nat) :
    Except DBError ArenaPtr × ChainedArena × AllocOracle :=
  let s := allocStep o
  if s.1 then
    (Except.ok ⟨a.chunks.length, 0⟩,
     { a with chunks := a.chunks ++ [List.replicate new_size 0] }, s.2)
  else
    (Except.error DBError.Memory, a, s.2)

/-- `ChainedArena::allocate` from src/allocator.rs lines 196-218, bug for bug:
when the last chunk has room the returned pointer is
`arena.as_mut_ptr().offset(size)` (the source's expression), not
`offset(self.pos)`. -/
def ChainedArena.allocate (a : ChainedArena) (o : AllocOracle) (size : Nat) :
    Except DBError ArenaPtr × ChainedArena × AllocOracle :=
  if size > a.max_size then
    (Except.error DBError.MemoryLimit, a, o)
  else
    match a.chunks.getLast? with
    | some arena =>
      if arena.length - a.pos ≥ size then
        (Except.ok ⟨a.chunks.length - 1, size⟩, { a with pos := a.pos + size }, o)
      else
        a.allocNew o (min (arena.length * 2) a.max_size)
    | none => a.allocNew o a.min_size

/-- `ptr::copy_nonoverlapping(data, ptr, len)` into one chunk, modelled as an
in-place overwrite of the byte range starting at `off`. -/
def writeBytes (chunk : List Nat) (off : Nat) (data : List Nat) : List Nat :=
  chunk.take off ++ data ++ chunk.drop (off + data.length)

/-- `ChainedArena::append` from src/allocator.rs lines 220-226. -/
def ChainedArena.append (a : ChainedArena) (o : AllocOracle) (data : List Nat) :
    Except DBError ArenaAppend × ChainedArena × AllocOracle :=
  match a.allocate o data.length with
  | (Except.error e, a2, o2) => (Except.error e, a2, o2)
  | (Except.ok ptr, a2, o2) =>
    (Except.ok ⟨a2.chunks.length, ptr⟩,
     { a2 with
        chunks := a2.chunks.set ptr.chunk
          (writeBytes (a2.chunks.getD ptr.chunk []) ptr.off data) }, o2)

/-- Dereference `len` bytes at an arena pointer. -/
def ChainedArena.readBytes (a : ChainedArena) (p : ArenaPtr) (len : Nat) :
    List Nat :=
  ((a.chunks.getD p.chunk []).drop p.off).take len

/-! ### Column (src/block.rs lines 106-319) -/

/-- Starting size for the VARLEN arena (src/block.rs: `MIN_ALIGN`). -/
def ARENA_MIN_SIZE : Nat := 32

/-- Limit on arena chunk size (src/block.rs: 16 MB). -/
def ARENA_MAX_SIZE : Nat := 16 * 1024 * 1024

/-- `Column` from src/block.rs.  `raw` / `raw_nulls` are the `OwnedChunk`s'
contents, `none` when the chunk was never allocated (`OwnedChunk::empty()`). -/
structure Column where
  attr : Attribute
  raw_nulls : Option (List Nat)
  raw : Option (List Nat)
  arena : ChainedArena
  deriving DecidableEq

/-- `Column::new` from src/block.rs lines 221-229. -/
def Column.new (attr : Attribute) : Column :=
  { attr := attr, raw_nulls := none, raw := none,
    arena := ChainedArena.new ARENA_MIN_SIZE ARENA_MAX_SIZE }

/-- `Column::capacity` (via `RefColumn`): `raw.len() / size_of(dtype)`;
an unallocated chunk has `len() = 0`. -/
def Column.capacity (c : Column) : Nat :=
  (c.raw.getD []).length / c.attr.dtype.size_of

/-- `Column::nulls_mut` from src/block.rs lines 235-246.  The `Ok` payload is
the null-byte slice (`&mut []` when the bitmap chunk was never allocated). -/
def Column.nulls_mut (c : Column) : Except DBError (List Nat) :=
  if !c.attr.nullable then
    Except.error (DBError.AttributeNullability c.attr.name)
  else
    Except.ok (c.raw_nulls.getD [])

/-- Reinterpret column bytes as `cap` rows of `s` bytes each, modelling
`slice::from_raw_parts_mut(ptr as *mut T::Store, cap)`. -/
def bytesToRows (s cap : Nat) (bytes : List Nat) : List (List Nat) :=
  (List.range cap).map fun i => (bytes.drop (i * s)).take s

/-- `Column::rows_mut::<T>` from src/block.rs lines 248-263, with the
compile-time token `T` represented by its `T::ENUM` tag `t`.  A null data
pointer (never-allocated chunk) yields the empty slice. -/
def Column.rows_mut (c : Column) (t : DType) :
    Except DBError (List (List Nat)) :=
  if c.attr.dtype ≠ t then
    Except.error (DBError.AttributeType c.attr.name)
  else
    match c.raw with
    | none => Except.ok []
    | some bytes => Except.ok (bytesToRows t.size_of c.capacity bytes)

/-- `Column::set_capacity` from src/block.rs lines 288-318: allocate fresh
chunks when the value chunk was never allocated (plus the null bitmap when
nullable), resize both otherwise.  The value chunk is `new_size =
rows * size_of` bytes, the null bitmap `rows` bytes; on a mid-function failure
the chunks already produced stay (the source assigned them to `self`). -/
def Column.set_capacity (c : Column) (o : AllocOracle) (rows : Nat) :
    Option DBError × Column × AllocOracle :=
  if c.raw.isNone then
    match allocStep o with
    | (false, o1) => (some DBError.Memory, c, o1)
    | (true, o1) =>
      if c.attr.nullable then
        match allocStep o1 with
        | (false, o2) =>
          (some DBError.Memory,
           { c with raw := some (List.replicate (rows * c.attr.dtype.size_of) 0) }, o2)
        | (true, o2) =>
          (none,
           { c with raw := some (List.replicate (rows * c.attr.dtype.size_of) 0),
                    raw_nulls := some (List.replicate rows 0) }, o2)
      else
        (none, { c with raw := some (List.replicate (rows * c.attr.dtype.size_of) 0) }, o1)
  else
    match chunkResize c.raw o (rows * c.attr.dtype.size_of) with
    | (some e, r, o1) => (some e, { c with raw := r }, o1)
    | (none, r, o1) =>
      if c.attr.nullable then
        match chunkResize c.raw_nulls o1 rows with
        | (some e, rn, o2) => (some e, { c with raw := r, raw_nulls := rn }, o2)
        | (none, rn, o2) => (none, { c with raw := r, raw_nulls := rn }, o2)
      else (none, { c with raw := r }, o1)

/-! ### Aliasing (src/block.rs lines 119-187) -/

/-- The data behind a `&RefColumn` trait object: the attribute and the
`rows_raw_slice()` / `nulls_raw_slice()` byte slices (both empty when the
backing chunk was never allocated). -/
structure RefColumnData where
  attr : Attribute
  rows_raw : List Nat
  nulls_raw : List Nat
  deriving DecidableEq

/-- `RefColumn::capacity` for any implementor: byte length over type width. -/
def RefColumnData.capacity (c : RefColumnData) : Nat :=
  c.rows_raw.length / c.attr.dtype.size_of

/-- View a `Column` through the `RefColumn` trait (src/block.rs lines
189-218). -/
def Column.toRef (c : Column) : RefColumnData :=
  { attr := c.attr, rows_raw := c.raw.getD [], nulls_raw := c.raw_nulls.getD [] }

/-- `AliasColumn` from src/block.rs lines 120-125: borrowed row and null byte
slices (modelled by value). -/
structure AliasColumn where
  attr : Attribute
  raw_nulls : List Nat
  raw : List Nat
  deriving DecidableEq

/-- `AliasColumn::capacity` from src/block.rs lines 166-168. -/
def AliasColumn.capacity (c : AliasColumn) : Nat :=
  c.raw.length / c.attr.dtype.size_of

def AliasColumn.toRef (c : AliasColumn) : RefColumnData :=
  { attr := c.attr, rows_raw := c.raw, nulls_raw := c.raw_nulls }

/-- Outcome of a Rust call that may return `Ok`, return `Err(DBError)`, or
panic (slice-index out of range, `unwrap()` of `None`). -/
inductive RResult (α : Type) where
  | ok (a : α)
  | err (e : DBError)
  | panicked
  deriving DecidableEq

/-- Rust slice indexing `&l[a .. b]`: panics (`none`) unless `a ≤ b ≤ l.len()`. -/
def sliceRange (l : List Nat) (a b : Nat) : Option (List Nat) :=
  if a ≤ b ∧ b ≤ l.length then some ((l.drop a).take (b - a)) else none

/-- `alias_column` from src/block.rs lines 130-158, bug for bug: with
`(offset, rows) = rangeOf range src.capacity`, the row slice is
`&raw[start .. start + len]` where `start = offset * size_of` and
`len = rows + size_of` (the source's expression, not `rows * size_of`); the
null slice is `&nulls[offset .. offset + rows]` when nullable, `&[]`
otherwise.  The source's local bindings are inlined. -/
def alias_column (src : RefColumnData) (range : Option RowRange) :
    RResult AliasColumn :=
  if (rangeOf range src.capacity).1 + (rangeOf range src.capacity).2 > src.capacity then
    RResult.err DBError.RowOutOfBounds
  else
    match sliceRange src.rows_raw
        ((rangeOf range src.capacity).1 * src.attr.dtype.size_of)
        ((rangeOf range src.capacity).1 * src.attr.dtype.size_of +
          ((rangeOf range src.capacity).2 + src.attr.dtype.size_of)) with
    | none => RResult.panicked
    | some col =>
      if src.attr.nullable then
        match sliceRange src.nulls_raw (rangeOf range src.capacity).1
            ((rangeOf range src.capacity).1 + (rangeOf range src.capacity).2) with
        | none => RResult.panicked
        | some nulls => RResult.ok { attr := src.attr, raw_nulls := nulls, raw := col }
      else
        RResult.ok { attr := src.attr, raw_nulls := [], raw := col }

/-! ### Views (src/block.rs lines 321-392) -/

/-- The data behind a `&View` trait object: `schema()` (its attribute list),
`column(pos)` (the list of `RefColumn`s, in schema order) and `rows()`. -/
structure ViewData where
  schema : List Attribute
  columns : List RefColumnData
  rows : Nat
  deriving DecidableEq

/-- `RefView` from src/block.rs lines 332-337. -/
structure RefView where
  schema : List Attribute
  columns : List AliasColumn
  rows : Nat
  deriving DecidableEq

def RefView.toView (v : RefView) : ViewData :=
  { schema := v.schema, columns := v.columns.map AliasColumn.toRef,
    rows := v.rows }

/-- The loop body of `alias_columns` over the positions `ps`:
`src.column(pos).unwrap()` panics when the view has fewer columns than its
schema, and the first failing `alias_column` aborts the loop via `?`. -/
def aliasColumnsAux (src : ViewData) (range : Option RowRange) :
    List Nat → RResult (List AliasColumn)
  | [] => RResult.ok []
  | p :: ps =>
    match src.columns.get? p with
    | none => RResult.panicked
    | some c =>
      match alias_column c range with
      | RResult.err e => RResult.err e
      | RResult.panicked => RResult.panicked
      | RResult.ok col =>
        match aliasColumnsAux src range ps with
        | RResult.ok rest => RResult.ok (col :: rest)
        | RResult.err e => RResult.err e
        | RResult.panicked => RResult.panicked

/-- `alias_columns` from src/block.rs lines 340-352. -/
def alias_columns (src : ViewData) (range : Option RowRange) :
    RResult (List AliasColumn) :=
  aliasColumnsAux src range (List.range src.schema.length)

/-- `window_alias` from src/block.rs lines 370-386, with
`(offset, rows) = rangeOf range src.rows` inlined. -/
def window_alias (src : ViewData) (range : Option RowRange) :
    RResult RefView :=
  if (rangeOf range src.rows).1 + (rangeOf range src.rows).2 > src.rows then
    RResult.err DBError.RowOutOfBounds
  else
    match alias_columns src range with
    | RResult.ok cols =>
      RResult.ok { schema := src.schema, columns := cols,
                   rows := (rangeOf range src.rows).2 }
    | RResult.err e => RResult.err e
    | RResult.panicked => RResult.panicked

/-! ### Block (src/block.rs lines 394-516) -/

/-- `round_up` from src/util/math.rs lines 17-25, instantiated at the natural
numbers (the `n ≥ 0` branch of the generic source). -/
def round_up (n m : Nat) : Nat := ((n + m - 1) / m) * m

/-- `Block` from src/block.rs (the allocator reference is the threaded
oracle). -/
structure Block where
  schema : List Attribute
  columns : List Column
  rows : Nat
  capacity : Nat
  deriving DecidableEq

/-- `Block::new` from src/block.rs lines 420-434: one empty column per schema
attribute, in schema order. -/
def Block.new (schema : List Attribute) : Block :=
  { schema := schema, columns := schema.map Column.new, rows := 0, capacity := 0 }

/-- View a `Block` through the `View` trait (src/block.rs lines 404-417). -/
def Block.toView (b : Block) : ViewData :=
  { schema := b.schema, columns := b.columns.map Column.toRef, rows := b.rows }

/-- The `for col in columns` loop of `Block::set_capacity`: grow each column in
turn, aborting on the first failure (already-grown columns stay grown). -/
def setCapacityCols (cols : List Column) (o : AllocOracle) (n : Nat) :
    Option DBError × List Column × AllocOracle :=
  match cols with
  | [] => (none, [], o)
  | c :: cs =>
    match c.set_capacity o n with
    | (some e, c1, o1) => (some e, c1 :: cs, o1)
    | (none, c1, o1) =>
      match setCapacityCols cs o1 n with
      | (r, cs1, o2) => (r, c1 :: cs1, o2)

/-- `Block::set_capacity` from src/block.rs lines 442-456: grow every column,
abort on the first failure (leaving `capacity` untouched); on success commit
`capacity = row_cap` and clamp `rows` down to it. -/
def Block.set_capacity (b : Block) (o : AllocOracle) (row_cap : Nat) :
    Option DBError × Block × AllocOracle :=
  match setCapacityCols b.columns o row_cap with
  | (some e, cols, o1) => (some e, { b with columns := cols }, o1)
  | (none, cols, o1) =>
    if row_cap < b.rows then
      (none, { b with columns := cols, capacity := row_cap, rows := row_cap }, o1)
    else
      (none, { b with columns := cols, capacity := row_cap }, o1)

/-- `Block::add_row` from src/block.rs lines 459-475. -/
def Block.add_row (b : Block) (o : AllocOracle) :
    Except DBError Nat × Block × AllocOracle :=
  if b.capacity > b.rows then
    (Except.ok b.rows, { b with rows := b.rows + 1 }, o)
  else
    let rowid := b.rows
    let new_cap := b.capacity + 1024
    match b.set_capacity o new_cap with
    | (some e, b1, o1) => (Except.error e, b1, o1)
    | (none, b1, o1) => (Except.ok rowid, { b1 with rows := b1.rows + 1 }, o1)

/-- `Block::add_rows` from src/block.rs lines 478-495, bug for bug: the
no-growth branch returns `self.rows + rows`, and growth targets
`round_up(self.capacity + rows, 1024)`. -/
def Block.add_rows (b : Block) (o : AllocOracle) (rows : Nat) :
    Except DBError Nat × Block × AllocOracle :=
  if b.capacity > b.rows + rows then
    (Except.ok (b.rows + rows), { b with rows := b.rows + rows }, o)
  else
    let rowid := b.rows
    let new_cap := round_up (b.capacity + rows) 1024
    match b.set_capacity o new_cap with
    | (some e, b1, o1) => (Except.error e, b1, o1)
    | (none, b1, o1) => (Except.ok rowid, { b1 with rows := b1.rows + rows }, o1)

/-- One call of the public mutating Block interface. -/
inductive BlockOp where
  | addRow
  | addRows (n : Nat)
  | setCapacity (n : Nat)
  deriving DecidableEq

/-- Execute one call, keeping the resulting state (the returned
`RowOffset`/error is dropped). -/
def Block.step (b : Block) (o : AllocOracle) : BlockOp → Block × AllocOracle
  | BlockOp.addRow => (b.add_row o).2
  | BlockOp.addRows n => (b.add_rows o n).2
  | BlockOp.setCapacity n => (b.set_capacity o n).2

/-- Execute a sequence of calls. -/
def Block.run (b : Block) (o : AllocOracle) : List BlockOp → Block × AllocOracle
  | [] => (b, o)
  | op :: ops => ((b.step o op).1.run (b.step o op).2 ops)

/-- A nullable column that has row storage also has its null bitmap (true of
every column `Column::set_capacity` has successfully grown, and of fresh
columns). -/
def ColumnWF (c : Column) : Prop :=
  c.attr.nullable = true → c.raw.isSome → c.raw_nulls.isSome

instance (c : Column) : Decidable (ColumnWF c) := by
  unfold ColumnWF; infer_instance

/-- The Block invariant of the spec: `rows ≤ capacity`, every column's capacity
equals the Block's `capacity` field, and columns are well-formed. -/
def BlockInv (b : Block) : Prop :=
  b.rows ≤ b.capacity ∧ ∀ c ∈ b.columns, c.capacity = b.capacity ∧ ColumnWF c

instance (b : Block) : Decidable (BlockInv b) := by
  unfold BlockInv; infer_instance

/-! ### Helper lemmas about capacity growth -/

theorem chunkResize_ok {x : Option (List Nat)} {o o1 : AllocOracle} {size : Nat}
    {r : Option (List Nat)} (h : chunkResize x o size = (none, r, o1)) :
    ∃ bytes, x = some bytes ∧ r = some (resizeBytes bytes size) := by
  unfold chunkResize at h
  split at h
  · simp at h
  · rename_i bytes
    split at h
    · simp only [Prod.mk.injEq] at h
      exact ⟨bytes, rfl, h.2.1.symm⟩
    · simp at h

theorem chunkResize_nil (bytes : List Nat) (size : Nat) :
    chunkResize (some bytes) [] size = (none, some (resizeBytes bytes size), []) := by
  simp [chunkResize, allocStep]

theorem Column.set_capacity_ok_fields {c : Column} {o o1 : AllocOracle} {n : Nat}
    {c1 : Column} (h : c.set_capacity o n = (none, c1, o1)) :
    c1.capacity = n ∧ c1.attr = c.attr ∧ ColumnWF c1 := by
  have hs := c.attr.dtype.size_of_pos
  unfold Column.set_capacity at h
  split at h
  · -- fresh chunk path
    split at h
    · simp at h
    · split at h
      · -- nullable
        split at h
        · simp at h
        · simp only [Prod.mk.injEq] at h
          obtain ⟨-, h2, -⟩ := h
          subst h2
          refine ⟨by simp [Column.capacity, Nat.mul_div_cancel _ hs], rfl, fun _ _ => by simp⟩
      · rename_i hnul
        simp only [Prod.mk.injEq] at h
        obtain ⟨-, h2, -⟩ := h
        subst h2
        exact ⟨by simp [Column.capacity, Nat.mul_div_cancel _ hs], rfl,
          fun hx _ => absurd hx hnul⟩
  · -- resize path
    split at h
    · simp at h
    · rename_i r o2 hcr
      split at h
      · split at h
        · simp at h
        · rename_i rn o3 hcrn
          simp only [Prod.mk.injEq] at h
          obtain ⟨-, h2, -⟩ := h
          subst h2
          obtain ⟨bytes, -, hr⟩ := chunkResize_ok hcr
          obtain ⟨nb, -, hrn⟩ := chunkResize_ok hcrn
          refine ⟨?_, rfl, fun _ _ => by simp [hrn]⟩
          simp [Column.capacity, hr, resizeBytes_length, Nat.mul_div_cancel _ hs]
      · rename_i hnul
        simp only [Prod.mk.injEq] at h
        obtain ⟨-, h2, -⟩ := h
        subst h2
        obtain ⟨bytes, -, hr⟩ := chunkResize_ok hcr
        refine ⟨?_, rfl, fun hx _ => absurd hx hnul⟩
        simp [Column.capacity, hr, resizeBytes_length, Nat.mul_div_cancel _ hs]

theorem Column.set_capacity_nil_succeeds (c : Column) (n : Nat) (hwf : ColumnWF c) :
    ∃ c1, c.set_capacity [] n = (none, c1, []) := by
  unfold Column.set_capacity
  cases hr : c.raw with
  | none =>
    simp only [hr, Option.isNone_none, if_true, allocStep]
    cases c.attr.nullable <;> simp [allocStep]
  | some bytes =>
    simp only [hr, Option.isNone_some, Bool.false_eq_true, if_false, chunkResize_nil]
    cases hn : c.attr.nullable with
    | false => simp
    | true =>
      have hsome := hwf hn (by simp [hr])
      obtain ⟨nb, hnb⟩ := Option.isSome_iff_exists.mp hsome
      simp [hn, hnb, chunkResize_nil]

theorem setCapacityCols_nil (cols : List Column) (n : Nat)
    (h : ∀ c ∈ cols, ColumnWF c) :
    ∃ cols1, setCapacityCols cols [] n = (none, cols1, []) ∧
      ∀ c1 ∈ cols1, c1.capacity = n ∧ ColumnWF c1 := by
  induction cols with
  | nil => exact ⟨[], rfl, by simp⟩
  | cons c cs ih =>
    obtain ⟨c1, hc1⟩ := Column.set_capacity_nil_succeeds c n (h c (by simp))
    obtain ⟨cs1, hcs, hprops⟩ := ih (fun x hx => h x (by simp [hx]))
    refine ⟨c1 :: cs1, ?_, ?_⟩
    · simp [setCapacityCols, hc1, hcs]
    · intro x hx
      rcases List.mem_cons.mp hx with rfl | hx2
      · exact ⟨(Column.set_capacity_ok_fields hc1).1,
               (Column.set_capacity_ok_fields hc1).2.2⟩
      · exact hprops x hx2

theorem Block.set_capacity_fail {b : Block} {o o1 : AllocOracle} {n : Nat}
    {e : DBError} {b1 : Block} (h : b.set_capacity o n = (some e, b1, o1)) :
    b1.rows = b.rows ∧ b1.capacity = b.capacity ∧ b1.schema = b.schema := by
  unfold Block.set_capacity at h
  split at h
  · simp only [Prod.mk.injEq] at h
    obtain ⟨-, h2, -⟩ := h
    subst h2
    exact ⟨rfl, rfl, rfl⟩
  · split at h <;> simp at h

theorem Block.set_capacity_ok {b : Block} {o o1 : AllocOracle} {n : Nat}
    {b1 : Block} (h : b.set_capacity o n = (none, b1, o1)) :
    b1.capacity = n ∧ b1.rows = (if n < b.rows then n else b.rows) ∧
    b1.schema = b.schema := by
  unfold Block.set_capacity at h
  split at h
  · simp at h
  · split at h
    · rename_i hlt
      simp only [Prod.mk.injEq] at h
      obtain ⟨-, h2, -⟩ := h
      subst h2
      simp [hlt]
    · rename_i hlt
      simp only [Prod.mk.injEq] at h
      obtain ⟨-, h2, -⟩ := h
      subst h2
      simp [hlt]

theorem Block.set_capacity_nil_inv (b : Block) (n : Nat)
    (h : ∀ c ∈ b.columns, ColumnWF c) :
    ∃ b1, b.set_capacity [] n = (none, b1, []) ∧ BlockInv b1 ∧
      b1.rows = (if n < b.rows then n else b.rows) := by
  obtain ⟨cols1, hcs, hprops⟩ := setCapacityCols_nil b.columns n h
  unfold Block.set_capacity
  rw [hcs]
  by_cases hlt : n < b.rows
  · refine ⟨{ b with columns := cols1, capacity := n, rows := n },
      by simp [hlt], ⟨?_, ?_⟩, by simp [hlt]⟩
    · simp
    · intro c hc
      have := hprops c (by simpa using hc)
      simpa using this
  · refine ⟨{ b with columns := cols1, capacity := n },
      by simp [hlt], ⟨?_, ?_⟩, by simp [hlt]⟩
    · simpa using Nat.le_of_not_lt hlt
    · intro c hc
      have := hprops c (by simpa using hc)
      simpa using this

theorem le_round_up (n m : Nat) (hm : 0 < m) : n ≤ round_up n m := by
  unfold round_up
  rw [Nat.mul_comm]
  have h1 := Nat.div_add_mod (n + m - 1) m
  have h2 := Nat.mod_lt (n + m - 1) hm
  generalize hX : m * ((n + m - 1) / m) = X at h1 ⊢
  omega

theorem Block.add_row_rows_le (b : Block) (o : AllocOracle)
    (h : b.rows ≤ b.capacity) :
    (b.add_row o).2.1.rows ≤ (b.add_row o).2.1.capacity := by
  unfold Block.add_row
  by_cases hb : b.capacity > b.rows
  · simp [hb]
    omega
  · rcases hsc : b.set_capacity o (b.capacity + 1024) with ⟨res, b1, o1⟩
    cases res with
    | some e =>
      obtain ⟨h1, h2, -⟩ := Block.set_capacity_fail hsc
      simp [hb, hsc]
      omega
    | none =>
      obtain ⟨h1, h2, -⟩ := Block.set_capacity_ok hsc
      have hlt : ¬ (b.capacity + 1024 < b.rows) := by omega
      rw [if_neg hlt] at h2
      simp [hb, hsc]
      omega

theorem Block.add_rows_rows_le (b : Block) (o : AllocOracle) (n : Nat)
    (h : b.rows ≤ b.capacity) :
    (b.add_rows o n).2.1.rows ≤ (b.add_rows o n).2.1.capacity := by
  unfold Block.add_rows
  by_cases hb : b.capacity > b.rows + n
  · simp [hb]
    omega
  · rcases hsc : b.set_capacity o (round_up (b.capacity + n) 1024) with ⟨res, b1, o1⟩
    have hru : b.capacity + n ≤ round_up (b.capacity + n) 1024 :=
      le_round_up _ _ (by decide)
    cases res with
    | some e =>
      obtain ⟨h1, h2, -⟩ := Block.set_capacity_fail hsc
      simp [hb, hsc]
      omega
    | none =>
      obtain ⟨h1, h2, -⟩ := Block.set_capacity_ok hsc
      have hlt : ¬ (round_up (b.capacity + n) 1024 < b.rows) := by omega
      rw [if_neg hlt] at h2
      simp [hb, hsc]
      omega

theorem Block.set_capacity_rows_le (b : Block) (o : AllocOracle) (n : Nat)
    (h : b.rows ≤ b.capacity) :
    (b.set_capacity o n).2.1.rows ≤ (b.set_capacity o n).2.1.capacity := by
  rcases hsc : b.set_capacity o n with ⟨res, b1, o1⟩
  cases res with
  | some e =>
    obtain ⟨h1, h2, -⟩ := Block.set_capacity_fail hsc
    simp
    omega
  | none =>
    obtain ⟨h1, h2, -⟩ := Block.set_capacity_ok hsc
    simp
    by_cases hlt : n < b.rows
    · rw [if_pos hlt] at h2; omega
    · rw [if_neg hlt] at h2; omega

theorem Block.step_rows_le (b : Block) (o : AllocOracle) (op : BlockOp)
    (h : b.rows ≤ b.capacity) :
    (b.step o op).1.rows ≤ (b.step o op).1.capacity := by
  cases op with
  | addRow => exact b.add_row_rows_le o h
  | addRows n => exact b.add_rows_rows_le o n h
  | setCapacity n => exact b.set_capacity_rows_le o n h

theorem Block.add_row_nil_inv (b : Block) (h : BlockInv b) :
    BlockInv (b.add_row []).2.1 ∧ (b.add_row []).2.2 = [] := by
  obtain ⟨hrc, hcols⟩ := h
  unfold Block.add_row
  by_cases hb : b.capacity > b.rows
  · simp only [hb, if_true]
    refine ⟨⟨by simp; omega, ?_⟩, trivial⟩
    intro c hc
    simpa using hcols c (by simpa using hc)
  · obtain ⟨b1, hsc, ⟨hrc1, hcols1⟩, hrows1⟩ :=
      Block.set_capacity_nil_inv b (b.capacity + 1024) (fun c hc => (hcols c hc).2)
    have hcap1 := (Block.set_capacity_ok hsc).1
    have hlt : ¬ (b.capacity + 1024 < b.rows) := by omega
    rw [if_neg hlt] at hrows1
    simp only [hb, if_false, hsc]
    refine ⟨⟨by simp; omega, ?_⟩, trivial⟩
    intro c hc
    simpa using hcols1 c (by simpa using hc)

theorem Block.add_rows_nil_inv (b : Block) (n : Nat) (h : BlockInv b) :
    BlockInv (b.add_rows [] n).2.1 ∧ (b.add_rows [] n).2.2 = [] := by
  obtain ⟨hrc, hcols⟩ := h
  unfold Block.add_rows
  by_cases hb : b.capacity > b.rows + n
  · simp only [hb, if_true]
    refine ⟨⟨by simp; omega, ?_⟩, trivial⟩
    intro c hc
    simpa using hcols c (by simpa using hc)
  · obtain ⟨b1, hsc, ⟨hrc1, hcols1⟩, hrows1⟩ :=
      Block.set_capacity_nil_inv b (round_up (b.capacity + n) 1024)
        (fun c hc => (hcols c hc).2)
    have hcap1 := (Block.set_capacity_ok hsc).1
    have hru : b.capacity + n ≤ round_up (b.capacity + n) 1024 :=
      le_round_up _ _ (by decide)
    have hlt : ¬ (round_up (b.capacity + n) 1024 < b.rows) := by omega
    rw [if_neg hlt] at hrows1
    simp only [hb, if_false, hsc]
    refine ⟨⟨by simp; omega, ?_⟩, trivial⟩
    intro c hc
    simpa using hcols1 c (by simpa using hc)

theorem Block.step_nil_inv (b : Block) (op : BlockOp) (h : BlockInv b) :
    BlockInv (b.step [] op).1 ∧ (b.step [] op).2 = [] := by
  cases op with
  | addRow => exact b.add_row_nil_inv h
  | addRows n => exact b.add_rows_nil_inv n h
  | setCapacity n =>
    obtain ⟨b1, hsc, hinv1, -⟩ :=
      Block.set_capacity_nil_inv b n (fun c hc => (h.2 c hc).2)
    simp only [Block.step, hsc]
    exact ⟨hinv1, trivial⟩

theorem Block.run_nil_inv (b : Block) (ops : List BlockOp) (h : BlockInv b) :
    BlockInv (b.run [] ops).1 := by
  induction ops generalizing b with
  | nil => exact h
  | cons op ops ih =>
    obtain ⟨h1, h2⟩ := Block.step_nil_inv b op h
    unfold Block.run
    rw [h2]
    exact ih _ h1

theorem Block.run_rows_le (b : Block) (o : AllocOracle) (ops : List BlockOp)
    (h : b.rows ≤ b.capacity) :
    (b.run o ops).1.rows ≤ (b.run o ops).1.capacity := by
  induction ops generalizing b o with
  | nil => exact h
  | cons op ops ih =>
    unfold Block.run
    exact ih _ _ (Block.step_rows_le b o op h)

theorem alias_column_err_iff (c : RefColumnData) (range : Option RowRange)
    (e : DBError) :
    alias_column c range = RResult.err e ↔
      e = DBError.RowOutOfBounds ∧
      (rangeOf range c.capacity).1 + (rangeOf range c.capacity).2 > c.capacity := by
  unfold alias_column
  by_cases hb : (rangeOf range c.capacity).1 + (rangeOf range c.capacity).2 > c.capacity
  · rw [if_pos hb]
    constructor
    · intro h
      injection h with h1
      exact ⟨h1.symm, hb⟩
    · rintro ⟨rfl, -⟩
      rfl
  · rw [if_neg hb]
    constructor
    · intro h
      exfalso
      split at h
      · simp at h
      · split at h
        · split at h
          · simp at h
          · simp at h
        · simp at h
    · rintro ⟨-, hcontra⟩
      exact absurd hcontra hb

theorem aliasColumnsAux_err {src : ViewData} {range : Option RowRange}
    {ps : List Nat} {e : DBError}
    (h : aliasColumnsAux src range ps = RResult.err e) :
    ∃ p ∈ ps, ∃ c, src.columns.get? p = some c ∧
      alias_column c range = RResult.err e := by
  induction ps with
  | nil => simp [aliasColumnsAux] at h
  | cons p ps ih =>
    unfold aliasColumnsAux at h
    split at h
    · simp at h
    · rename_i c hg
      split at h
      · rename_i e2 ha
        injection h with h1
        subst h1
        exact ⟨p, by simp, c, hg, ha⟩
      · simp at h
      · rename_i col ha
        split at h
        · simp at h
        · rename_i e2 hr
          injection h with h1
          subst h1
          obtain ⟨q, hq, c2, hg2, ha2⟩ := ih hr
          exact ⟨q, by simp [hq], c2, hg2, ha2⟩
        · simp at h

theorem window_alias_ok_rows {src : ViewData} {range : Option RowRange}
    {v : RefView} (h : window_alias src range = RResult.ok v) :
    v.rows = (rangeOf range src.rows).2 := by
  unfold window_alias at h
  split at h
  · simp at h
  · split at h
    · injection h with h1
      subst h1
      rfl
    · simp at h
    · simp at h

theorem window_alias_err {src : ViewData} {range : Option RowRange}
    (h : window_alias src range = RResult.err DBError.RowOutOfBounds) :
    (rangeOf range src.rows).1 + (rangeOf range src.rows).2 > src.rows ∨
    ∃ c ∈ src.columns,
      (rangeOf range c.capacity).1 + (rangeOf range c.capacity).2 > c.capacity := by
  unfold window_alias at h
  split at h
  · rename_i hb
    exact Or.inl hb
  · split at h
    · simp at h
    · rename_i e2 hr
      injection h with h1
      subst h1
      unfold alias_columns at hr
      obtain ⟨p, hp, c, hg, ha⟩ := aliasColumnsAux_err hr
      have hmem : c ∈ src.columns := List.get?_mem hg
      exact Or.inr ⟨c, hmem, ((alias_column_err_iff c range _).mp ha).2⟩
    · simp at h

/-! ### Fixtures: concrete values used to settle the claims -/

def c1_arena : ChainedArena := ChainedArena.new 32 32

def c1_run1 : Except DBError ArenaAppend × ChainedArena × AllocOracle :=
  c1_arena.append [] [1, 1, 1, 1]

def c1_run2 : Except DBError ArenaAppend × ChainedArena × AllocOracle :=
  c1_run1.2.1.append c1_run1.2.2 [2, 2, 2, 2]

def c1_run3 : Except DBError ArenaAppend × ChainedArena × AllocOracle :=
  c1_run2.2.1.append c1_run2.2.2 [3, 3, 3, 3]

def c2_src : RefColumnData :=
  { attr := { name := "c", nullable := false, dtype := DType.UINT32 },
    rows_raw := List.range 16, nulls_raw := [] }

def c9_src : RefColumnData :=
  { attr := { name := "b", nullable := false, dtype := DType.BOOLEAN },
    rows_raw := [0, 0, 0, 0], nulls_raw := [] }

def c8_col : Column :=
  Column.new { name := "a", nullable := false, dtype := DType.UINT32 }

def c3_blk : Block :=
  Block.new [{ name := "b", nullable := false, dtype := DType.BOOLEAN }]

def c3_b2048 : Block := (c3_blk.set_capacity [] 2048).2.1

def c3_b10 : Block := (c3_blk.set_capacity [] 10).2.1

def c4_fresh : Block :=
  Block.new [{ name := "a", nullable := true, dtype := DType.UINT32 }]

def c4_grown : Block := (c4_fresh.set_capacity [] 1024).2.1

def c7_blk : Block :=
  Block.new [{ name := "a", nullable := false, dtype := DType.UINT32 },
             { name := "b", nullable := false, dtype := DType.UINT32 }]

def c6_attr : Attribute := { name := "c", nullable := false, dtype := DType.UINT32 }

def c6_b : Block :=
  ((Block.new [c6_attr]).run []
    [BlockOp.setCapacity 4, BlockOp.addRow, BlockOp.addRow,
     BlockOp.addRow, BlockOp.addRow]).1

def c6_v1 : RefView :=
  { schema := [c6_attr],
    columns := [{ attr := c6_attr, raw_nulls := [], raw := [0, 0, 0, 0, 0, 0] }],
    rows := 2 }

def c6_wsrc : ViewData :=
  { schema := [c6_attr],
    columns := [{ attr := c6_attr,
                  rows_raw := [0, 0, 0, 0, 0, 0, 0, 0, 0, 0, 0, 0],
                  nulls_raw := [] }],
    rows := 3 }

/-! ### The claims -/

/-- Claim C1 (refuted by the code, evaluated at a failing input): appends of
sizes within `max_size` are supposed to return successive write-cursor
positions with disjoint byte regions, the bytes at previously returned
pointers staying unchanged.  On `ChainedArena::new(32, 32)`, three appends of
4 bytes each return pointers (chunk 0, offset 0), (chunk 0, offset 4) and
again (chunk 0, offset 4): the third append reuses the second append's
pointer and overwrites its bytes, because `allocate` computes the pointer as
`base.offset(size)` instead of `base.offset(pos)` and never advances `pos`
when a fresh chunk is allocated. -/
theorem c1_arena_append_not_bump :
    c1_run1.1 = Except.ok ⟨1, ⟨0, 0⟩⟩ ∧
    c1_run2.1 = Except.ok ⟨1, ⟨0, 4⟩⟩ ∧
    c1_run3.1 = Except.ok ⟨1, ⟨0, 4⟩⟩ ∧
    c1_run2.2.1.readBytes ⟨0, 4⟩ 4 = [2, 2, 2, 2] ∧
    c1_run3.2.1.readBytes ⟨0, 4⟩ 4 = [3, 3, 3, 3] := by decide

/-- Claim C5: appending a slice longer than `max_size` always fails with
`DBError::MemoryLimit` and performs no partial write: the chunk list, the
write cursor and every previously written byte are exactly as before the
call (the whole arena state, and even the allocator, are untouched). -/
theorem c5_oversized_append_memory_limit (a : ChainedArena) (o : AllocOracle)
    (data : List Nat) (h : data.length > a.max_size) :
    a.append o data = (Except.error DBError.MemoryLimit, a, o) := by
  unfold ChainedArena.append ChainedArena.allocate
  simp [h]

/-- Claim C5, witness: a 2-byte append on an arena with `max_size = 1`. -/
theorem c5_oversized_append_witness :
    (ChainedArena.new 1 1).append [] [7, 7] =
      (Except.error DBError.MemoryLimit, ChainedArena.new 1 1, []) :=
  c5_oversized_append_memory_limit _ _ _ (by decide)

/-- Claim C2 (refuted by the code, evaluated at a failing input): aliasing
rows [0, 2) of a 4-row UINT32 source whose 16 bytes are 0..15 is supposed to
yield the byte range [0, 8) (so `capacity() = 2`); the code slices
`len = rows + size_of = 6` bytes, yielding [0, 6) and `capacity() = 1`. -/
theorem c2_alias_slice_wrong_length :
    alias_column c2_src (some { offset := 0, rows := 2 }) =
      RResult.ok { attr := { name := "c", nullable := false, dtype := DType.UINT32 },
                   raw_nulls := [], raw := [0, 1, 2, 3, 4, 5] } ∧
    AliasColumn.capacity
      { attr := { name := "c", nullable := false, dtype := DType.UINT32 },
        raw_nulls := [], raw := [0, 1, 2, 3, 4, 5] } = 1 ∧
    (c2_src.rows_raw.drop (0 * 4)).take ((0 + 2) * 4) =
      [0, 1, 2, 3, 4, 5, 6, 7] := by decide

/-- Claim C9 (refuted by the code, evaluated at a failing input): aliasing the
whole of a non-nullable 4-row BOOLEAN column (a valid range: `offset + rows =
capacity`) is supposed to succeed with an empty null slice; the code panics,
slicing `rows + size_of = 5` bytes out of the 4-byte buffer. -/
theorem c9_alias_nonnullable_panics :
    c9_src.capacity = 4 ∧ c9_src.attr.nullable = false ∧
    alias_column c9_src none = RResult.panicked ∧
    alias_column c9_src (some { offset := 0, rows := 4 }) = RResult.panicked := by
  decide

/-- Claim C10: a freshly created Column has `capacity() = 0`, and both
`rows_mut` with the matching type token and (for a nullable attribute)
`nulls_mut` succeed with empty slices instead of erroring. -/
theorem c10_fresh_column_empty_access (nm : String) (nl : Bool) (t : DType) :
    (Column.new { name := nm, nullable := nl, dtype := t }).capacity = 0 ∧
    (Column.new { name := nm, nullable := nl, dtype := t }).rows_mut t =
      Except.ok [] ∧
    (Column.new { name := nm, nullable := true, dtype := t }).nulls_mut =
      Except.ok [] := by
  refine ⟨?_, ?_, ?_⟩
  · simp [Column.new, Column.capacity]
  · simp [Column.new, Column.rows_mut]
  · simp [Column.new, Column.nulls_mut]

/-- Claim C8: `nulls_mut` errors with `AttributeNullability` exactly when the
attribute is not nullable, `rows_mut` errors with `AttributeType` exactly when
the requested type token differs from the attribute's runtime tag, and in all
other cases both return `Ok`. -/
theorem c8_typed_access_errors (c : Column) (t : DType) :
    (c.nulls_mut = Except.error (DBError.AttributeNullability c.attr.name) ↔
      c.attr.nullable = false) ∧
    (c.attr.nullable = true → c.nulls_mut = Except.ok (c.raw_nulls.getD [])) ∧
    (c.rows_mut t = Except.error (DBError.AttributeType c.attr.name) ↔
      ¬ c.attr.dtype = t) ∧
    (c.attr.dtype = t → ∃ x, c.rows_mut t = Except.ok x) := by
  refine ⟨?_, ?_, ?_, ?_⟩
  · unfold Column.nulls_mut
    cases hn : c.attr.nullable <;> simp
  · intro hn
    unfold Column.nulls_mut
    simp [hn]
  · unfold Column.rows_mut
    by_cases ht : c.attr.dtype = t
    · simp only [ht]
      simp
      cases c.raw <;> simp
    · simp [ht]
  · intro ht
    unfold Column.rows_mut
    simp only [ht]
    simp
    cases c.raw
    · exact ⟨[], rfl⟩
    · exact ⟨_, rfl⟩

/-- Claim C8, witness: a fresh non-nullable UINT32 column errors on
`nulls_mut` and on `rows_mut::<UInt64>`, and succeeds on `rows_mut::<UInt32>`. -/
theorem c8_typed_access_witness :
    c8_col.nulls_mut = Except.error (DBError.AttributeNullability "a") ∧
    c8_col.rows_mut DType.UINT64 = Except.error (DBError.AttributeType "a") ∧
    (∃ x, c8_col.rows_mut DType.UINT32 = Except.ok x) :=
  ⟨((c8_typed_access_errors c8_col DType.UINT32).1).mpr rfl,
   ((c8_typed_access_errors c8_col DType.UINT64).2.2.1).mpr (by decide),
   (c8_typed_access_errors c8_col DType.UINT32).2.2.2 rfl⟩
/-- Claim C3 (counterexample): `add_rows` is claimed to return the pre-call
`rows` and to grow to `round_up(rows + n, 1024)`.  On a 2048-capacity block
with `rows = 0`, `add_rows(1)` returns 1 (the post-call row count), not 0;
and on a 10-capacity block with `rows = 0`, `add_rows(1020)` grows the
capacity to `round_up(capacity + n, 1024) = 2048`, not
`round_up(rows + n, 1024) = 1024`. -/
theorem c3_add_rows_counterexample :
    c3_b2048.rows = 0 ∧ c3_b2048.capacity = 2048 ∧
    (c3_b2048.add_rows [] 1).1 = Except.ok 1 ∧
    c3_b10.rows = 0 ∧ c3_b10.capacity = 10 ∧
    (c3_b10.add_rows [] 1020).2.1.capacity = 2048 ∧
    round_up (c3_b10.rows + 1020) 1024 = 1024 := by decide

/-- Claim C3 (amended): when `capacity > rows + n`, `add_rows(n)` returns
`rows + n` (the post-call row count) and only increments `rows`; otherwise it
returns the pre-call `rows` and, when growth succeeds, the new capacity is
`round_up(capacity + n, 1024)`. -/
theorem c3_add_rows_amended (b : Block) (o : AllocOracle) (n : Nat) :
    (b.capacity > b.rows + n →
      b.add_rows o n = (Except.ok (b.rows + n), { b with rows := b.rows + n }, o)) ∧
    (¬ b.capacity > b.rows + n → ∀ b1 o1,
      b.set_capacity o (round_up (b.capacity + n) 1024) = (none, b1, o1) →
      b.add_rows o n = (Except.ok b.rows, { b1 with rows := b1.rows + n }, o1)) := by
  constructor
  · intro h
    unfold Block.add_rows
    simp [h]
  · intro h b1 o1 hset
    unfold Block.add_rows
    simp [h, hset]

/-- Claim C3 (amended), witness: the no-growth branch on the 2048-capacity
block. -/
theorem c3_add_rows_amended_witness :
    c3_b2048.add_rows [] 1 =
      (Except.ok (c3_b2048.rows + 1), { c3_b2048 with rows := c3_b2048.rows + 1 }, []) :=
  (c3_add_rows_amended c3_b2048 [] 1).1 (by decide)

/-- Claim C4: when `rows < capacity`, `add_row` returns the pre-call `rows`
and increments it, leaving capacity unchanged; otherwise (for a block
satisfying `rows ≤ capacity`) it first grows the capacity by 1024 and then
does the same. -/
theorem c4_add_row_growth (b : Block) (o : AllocOracle) :
    (b.capacity > b.rows →
      b.add_row o = (Except.ok b.rows, { b with rows := b.rows + 1 }, o)) ∧
    (¬ b.capacity > b.rows → b.rows ≤ b.capacity → ∀ b1 o1,
      b.set_capacity o (b.capacity + 1024) = (none, b1, o1) →
      b.add_row o = (Except.ok b.rows, { b1 with rows := b.rows + 1 }, o1) ∧
      b1.capacity = b.capacity + 1024 ∧ b1.rows = b.rows) := by
  constructor
  · intro h
    unfold Block.add_row
    simp [h]
  · intro h hle b1 o1 hset
    obtain ⟨hc1, hr1, -⟩ := Block.set_capacity_ok hset
    have hlt : ¬ (b.capacity + 1024 < b.rows) := by omega
    rw [if_neg hlt] at hr1
    refine ⟨?_, hc1, hr1⟩
    unfold Block.add_row
    simp [h, hset, hr1]

/-- Claim C4, witness (the spec scenario): a fresh block over one nullable
UINT32 attribute has capacity 0; one `add_row` returns row 0 and leaves
`rows() = 1` and `capacity() = 1024`. -/
theorem c4_add_row_witness :
    c4_fresh.capacity = 0 ∧
    c4_fresh.add_row [] = (Except.ok 0, { c4_grown with rows := 0 + 1 }, []) ∧
    ({ c4_grown with rows := 0 + 1 }).rows = 1 ∧
    ({ c4_grown with rows := 0 + 1 }).capacity = 1024 := by
  have h := (c4_add_row_growth c4_fresh []).2 (by decide) (by decide) c4_grown [] rfl
  exact ⟨rfl, h.1, rfl, by decide⟩
/-- Claim C7 (counterexample): on a block over two non-nullable UINT32
attributes (which satisfies the Block invariant), a `set_capacity(4)` whose
second allocation fails leaves the first column grown to capacity 4 and the
second at 0 while the block's `capacity` field stays 0: after a failing call
the columns do not share identical capacity. -/
theorem c7_failed_growth_counterexample :
    BlockInv c7_blk ∧
    (c7_blk.set_capacity [true, false] 4).1 = some DBError.Memory ∧
    ((c7_blk.set_capacity [true, false] 4).2.1.columns.map Column.capacity) = [4, 0] ∧
    (c7_blk.set_capacity [true, false] 4).2.1.capacity = 0 := by decide

/-- Claim C7 (amended): starting from a block satisfying the invariant,
`rows() ≤ capacity()` holds after every prefix of any sequence of `add_row`,
`add_rows` and `set_capacity` calls even when allocations fail; when every
allocation succeeds (the empty oracle), the full invariant — including that
every column's capacity equals the block's `capacity` field — also holds
after every prefix. -/
theorem c7_invariant_amended (b : Block) (ops : List BlockOp) (k : Nat)
    (o : AllocOracle) (h : BlockInv b) :
    (b.run o (ops.take k)).1.rows ≤ (b.run o (ops.take k)).1.capacity ∧
    BlockInv (b.run [] (ops.take k)).1 :=
  ⟨Block.run_rows_le b o (ops.take k) h.1, Block.run_nil_inv b (ops.take k) h⟩

/-- Claim C7 (amended), witness: a fresh one-column block run through
`add_row` then `add_rows 3`, against a once-failing allocator and against the
always-succeeding one. -/
theorem c7_invariant_witness :
    ((Block.new [{ name := "a", nullable := true, dtype := DType.UINT32 }]).run
        [false] ([BlockOp.addRow, BlockOp.addRows 3].take 2)).1.rows ≤
      ((Block.new [{ name := "a", nullable := true, dtype := DType.UINT32 }]).run
        [false] ([BlockOp.addRow, BlockOp.addRows 3].take 2)).1.capacity ∧
    BlockInv ((Block.new [{ name := "a", nullable := true, dtype := DType.UINT32 }]).run
        [] ([BlockOp.addRow, BlockOp.addRows 3].take 2)).1 :=
  c7_invariant_amended _ [BlockOp.addRow, BlockOp.addRows 3] 2 [false] (by decide)

/-- Claim C6 (counterexample): `window_alias` is claimed to fail with
`RowOutOfBounds` exactly when `offset + rows > source.rows()`.  Windowing rows
[0, 2) of a 4-row block gives a `RefView` whose `rows()` is 2 but whose single
aliased column has `capacity() = 1` (a consequence of the `rows + size_of`
slice-length bug), and windowing rows [0, 2) of that view fails with
`RowOutOfBounds` even though `0 + 2 > 2` is false. -/
theorem c6_window_alias_counterexample :
    window_alias c6_b.toView (some { offset := 0, rows := 2 }) = RResult.ok c6_v1 ∧
    window_alias c6_v1.toView (some { offset := 0, rows := 2 }) =
      RResult.err DBError.RowOutOfBounds ∧
    ¬ ((0 : Nat) + 2 > c6_v1.toView.rows) := by decide

/-- Claim C6 (amended): `alias_column` returns `RowOutOfBounds` exactly when
`offset + rows > source.capacity()` (any returned error is `RowOutOfBounds`);
`window_alias` returns `RowOutOfBounds` whenever `offset + rows >
source.rows()`, and conversely a `RowOutOfBounds` from `window_alias` means
either that bound was exceeded or some column of the view failed its own
capacity check; on success the `RefView`'s `rows()` equals the requested
range's row count (the full source row count when no range is given). -/
theorem c6_row_bounds_amended (src : ViewData) (range : Option RowRange) :
    (∀ c : RefColumnData, ∀ e : DBError,
      alias_column c range = RResult.err e ↔
        e = DBError.RowOutOfBounds ∧
        (rangeOf range c.capacity).1 + (rangeOf range c.capacity).2 > c.capacity) ∧
    ((rangeOf range src.rows).1 + (rangeOf range src.rows).2 > src.rows →
      window_alias src range = RResult.err DBError.RowOutOfBounds) ∧
    (window_alias src range = RResult.err DBError.RowOutOfBounds →
      (rangeOf range src.rows).1 + (rangeOf range src.rows).2 > src.rows ∨
      ∃ c ∈ src.columns,
        (rangeOf range c.capacity).1 + (rangeOf range c.capacity).2 > c.capacity) ∧
    (∀ v, window_alias src range = RResult.ok v →
      v.rows = (rangeOf range src.rows).2) := by
  refine ⟨fun c e => alias_column_err_iff c range e, ?_, window_alias_err,
    fun v hv => window_alias_ok_rows hv⟩
  intro hb
  unfold window_alias
  rw [if_pos hb]

/-- Claim C6 (amended), witness: requesting rows [2, 4) of a 3-row view fails
with `RowOutOfBounds`. -/
theorem c6_row_bounds_witness :
    window_alias c6_wsrc (some { offset := 2, rows := 2 }) =
      RResult.err DBError.RowOutOfBounds :=
  (c6_row_bounds_amended c6_wsrc (some { offset := 2, rows := 2 })).2.1 (by decide)

end DBKit
